import Mathlib

/-!
Shallow embedding of the streaming-chat client core of the article_rag
repository: the conversation data model (`types.ts`), the stream
aggregation loops (`streamChat`, `streamSuggestions`), the error
classifier (`extractErrorMessage`), the article-processing server
function (`processArticle`), the chat submit handlers (`handleSubmit`,
`handleSuggestArticles` in the `AIChat` component) and the error-banner
timer effect of `ArticleProcess`.

JavaScript builtins used by the code (`JSON.parse`, truthiness, array
element / property access) are modelled by executable Lean functions
faithful to their standard semantics on the values the code can see.
-/

namespace ArticleRag

/-- Message type from `types.ts`: `{ role, content }`. Roles in the source
are the string literals "user" | "assistant" | "tool" | "system"; the
embedding keeps them as strings. -/
structure Message where
  role : String
  content : String
deriving DecidableEq, Repr

/-- ConversationCard from `types.ts`: one user/assistant exchange. -/
structure ConversationCard where
  user : Message
  assistant : Message
deriving DecidableEq, Repr

/-! ### JSON values and `JSON.parse`

`extractErrorMessage` and `processArticle` call the JavaScript builtin
`JSON.parse`. The builtin is modelled by an executable recursive-descent
parser over the standard JSON grammar. Numbers keep their source lexeme
(only their truthiness, i.e. being zero or not, is ever observed by the
modelled code). -/

/-- Parsed JSON values as `JSON.parse` produces them. Object members keep
source order; on duplicate keys JavaScript keeps the last binding, which
`jsGetField` implements. -/
inductive Json where
  | null : Json
  | bool (b : Bool) : Json
  | num (lexeme : String) : Json
  | str (s : String) : Json
  | arr (elems : List Json) : Json
  | obj (members : List (String × Json)) : Json

/-- JSON insignificant whitespace characters. -/
def isJsonWs (c : Char) : Bool :=
  c = ' ' || c = '\t' || c = '\n' || c = '\r'

/-- Drop leading JSON whitespace. -/
def skipWs : List Char → List Char
  | [] => []
  | c :: cs => if isJsonWs c then skipWs cs else c :: cs

/-- Value of a hexadecimal digit, if the character is one. -/
def hexVal (c : Char) : Option Nat :=
  if '0' ≤ c ∧ c ≤ '9' then some (c.toNat - '0'.toNat)
  else if 'a' ≤ c ∧ c ≤ 'f' then some (c.toNat - 'a'.toNat + 10)
  else if 'A' ≤ c ∧ c ≤ 'F' then some (c.toNat - 'A'.toNat + 10)
  else none

/-- First pass over a JSON string body after the opening quote: decodes
escapes to the UTF-16 code units of the JavaScript string and returns
the units together with the input remaining after the closing quote.
Unescaped control characters are rejected, as in strict `JSON.parse`;
a raw character beyond the Basic Multilingual Plane contributes its
surrogate pair. -/
def parseStringUnits : List Char → Option (List Nat × List Char)
  | [] => none
  | '"' :: rest => some ([], rest)
  | '\\' :: 'u' :: h1 :: h2 :: h3 :: h4 :: rest =>
    match hexVal h1, hexVal h2, hexVal h3, hexVal h4 with
    | some a, some b, some c, some d =>
      match parseStringUnits rest with
      | some (us, r) => some (((((a * 16 + b) * 16 + c) * 16 + d) : Nat) :: us, r)
      | none => none
    | _, _, _, _ => none
  | '\\' :: e :: rest =>
    match
      (if e = '"' then some '"'.toNat
       else if e = '\\' then some '\\'.toNat
       else if e = '/' then some '/'.toNat
       else if e = 'b' then some 8
       else if e = 'f' then some 12
       else if e = 'n' then some '\n'.toNat
       else if e = 'r' then some '\r'.toNat
       else if e = 't' then some '\t'.toNat
       else none) with
    | some d =>
      match parseStringUnits rest with
      | some (us, r) => some (d :: us, r)
      | none => none
    | none => none
  | c :: rest =>
    if c.toNat < 32 then none
    else
      match parseStringUnits rest with
      | some (us, r) =>
        if c.toNat < 0x10000 then some (c.toNat :: us, r)
        else
          some ((0xD800 + (c.toNat - 0x10000) / 0x400)
            :: (0xDC00 + (c.toNat - 0x10000) % 0x400) :: us, r)
      | none => none

/-- A single UTF-16 unit outside a surrogate pair: a lone surrogate,
which yields an unpaired unit in the JavaScript string, is represented
by U+FFFD since Lean strings hold only Unicode scalar values. -/
def decodeUnit (n : Nat) : Char :=
  if 0xD800 ≤ n ∧ n ≤ 0xDFFF then Char.ofNat 0xFFFD else Char.ofNat n

/-- Second pass: combines a high surrogate followed by a low surrogate
into the encoded code point and decodes every other unit on its own. -/
def utf16ToChars : List Nat → List Char
  | [] => []
  | [n] => [decodeUnit n]
  | n :: m :: rest =>
    if 0xD800 ≤ n ∧ n ≤ 0xDBFF then
      if 0xDC00 ≤ m ∧ m ≤ 0xDFFF then
        Char.ofNat (0x10000 + (n - 0xD800) * 0x400 + (m - 0xDC00)) :: utf16ToChars rest
      else decodeUnit n :: utf16ToChars (m :: rest)
    else decodeUnit n :: utf16ToChars (m :: rest)

/-- Body of a JSON string after the opening quote: returns the decoded
characters and the input remaining after the closing quote. -/
def parseStringBody (cs : List Char) : Option (List Char × List Char) :=
  match parseStringUnits cs with
  | some (us, r) => some (utf16ToChars us, r)
  | none => none

/-- Take a maximal run of decimal digits. -/
def takeDigits : List Char → List Char × List Char
  | [] => ([], [])
  | c :: cs =>
    if c.isDigit then
      let (ds, rest) := takeDigits cs
      (c :: ds, rest)
    else ([], c :: cs)

/-- Integer part of a JSON number: `0` or a nonzero digit followed by
digits (leading zeros are rejected, as in `JSON.parse`). -/
def parseIntPart : List Char → Option (List Char × List Char)
  | [] => none
  | '0' :: cs =>
    match cs with
    | c :: _ => if c.isDigit then none else some (['0'], cs)
    | [] => some (['0'], [])
  | c :: cs =>
    if '1' ≤ c ∧ c ≤ '9' then
      let (ds, rest) := takeDigits cs
      some (c :: ds, rest)
    else none

/-- Optional fraction part `.digits` of a JSON number. -/
def parseFracPart : List Char → Option (List Char × List Char)
  | '.' :: cs =>
    match takeDigits cs with
    | ([], _) => none
    | (ds, rest) => some ('.' :: ds, rest)
  | cs => some ([], cs)

/-- Optional exponent part of a JSON number. -/
def parseExpPart : List Char → Option (List Char × List Char)
  | e :: cs =>
    if e = 'e' ∨ e = 'E' then
      let (sign, cs2) :=
        match cs with
        | '+' :: r => (['+'], r)
        | '-' :: r => (['-'], r)
        | r => (([] : List Char), r)
      match takeDigits cs2 with
      | ([], _) => none
      | (ds, rest) => some (e :: (sign ++ ds), rest)
    else some ([], e :: cs)
  | [] => some ([], [])

/-- A complete JSON number token, returned as its lexeme. -/
def parseNumber (cs : List Char) : Option (String × List Char) :=
  let (neg, cs1) :=
    match cs with
    | '-' :: r => ((['-'] : List Char), r)
    | r => (([] : List Char), r)
  match parseIntPart cs1 with
  | none => none
  | some (ip, cs2) =>
    match parseFracPart cs2 with
    | none => none
    | some (fp, cs3) =>
      match parseExpPart cs3 with
      | none => none
      | some (ep, cs4) => some (String.mk (neg ++ ip ++ fp ++ ep), cs4)

mutual

/-- Recursive-descent JSON value, fuel-bounded. -/
def parseValue : Nat → List Char → Option (Json × List Char)
  | 0, _ => none
  | fuel + 1, cs =>
    match skipWs cs with
    | 'n' :: 'u' :: 'l' :: 'l' :: rest => some (.null, rest)
    | 't' :: 'r' :: 'u' :: 'e' :: rest => some (.bool true, rest)
    | 'f' :: 'a' :: 'l' :: 's' :: 'e' :: rest => some (.bool false, rest)
    | '"' :: rest =>
      match parseStringBody rest with
      | some (s, r) => some (.str (String.mk s), r)
      | none => none
    | '[' :: rest =>
      (match skipWs rest with
       | ']' :: r => some (.arr [], r)
       | r =>
         match parseItems fuel r with
         | some (vs, r2) => some (.arr vs, r2)
         | none => none)
    | '\x7b' :: rest =>
      (match skipWs rest with
       | '\x7d' :: r => some (.obj [], r)
       | r =>
         match parseMembers fuel r with
         | some (ms, r2) => some (.obj ms, r2)
         | none => none)
    | cs2 =>
      match parseNumber cs2 with
      | some (lex, r) => some (.num lex, r)
      | none => none

/-- One-or-more comma-separated array elements up to the closing bracket. -/
def parseItems : Nat → List Char → Option (List Json × List Char)
  | 0, _ => none
  | fuel + 1, cs =>
    match parseValue fuel cs with
    | none => none
    | some (v, rest) =>
      match skipWs rest with
      | ',' :: r =>
        (match parseItems fuel r with
         | some (vs, r2) => some (v :: vs, r2)
         | none => none)
      | ']' :: r => some ([v], r)
      | _ => none

/-- One-or-more comma-separated object members up to the closing brace. -/
def parseMembers : Nat → List Char → Option (List (String × Json) × List Char)
  | 0, _ => none
  | fuel + 1, cs =>
    match skipWs cs with
    | '"' :: r =>
      (match parseStringBody r with
       | none => none
       | some (k, r1) =>
         match skipWs r1 with
         | ':' :: r2 =>
           (match parseValue fuel r2 with
            | none => none
            | some (v, r3) =>
              match skipWs r3 with
              | ',' :: r4 =>
                (match parseMembers fuel r4 with
                 | some (ms, r5) => some ((String.mk k, v) :: ms, r5)
                 | none => none)
              | '\x7d' :: r4 => some ([(String.mk k, v)], r4)
              | _ => none)
         | _ => none)
    | _ => none

end

/-- Model of `JSON.parse`: `none` means the builtin throws a SyntaxError.
The fuel `2 * s.length + 2` dominates the recursion depth, since each
nested call consumes at least one input character first. -/
def jsonParse (s : String) : Option Json :=
  match parseValue (2 * s.length + 2) s.data with
  | some (v, rest) => if (skipWs rest).isEmpty then some v else none
  | none => none

/-- JavaScript truthiness of a parsed JSON value: `null`, `false`, numeric
zero and the empty string are falsy; every array and object is truthy.
A number lexeme denotes zero exactly when its mantissa (the part before
any exponent marker) has no digit in 1..9 — a sub-denormal magnitude
such as `1e-400`, which JavaScript rounds to the falsy double `0`, is
treated as truthy; no theorem below observes the truthiness of a
number-valued field. -/
def jsTruthy : Json → Bool
  | .null => false
  | .bool b => b
  | .str s => s ≠ ""
  | .num lex =>
    (lex.data.takeWhile (fun c => c ≠ 'e' ∧ c ≠ 'E')).any
      (fun c => '1' ≤ c ∧ c ≤ '9')
  | .arr _ => true
  | .obj _ => true

/-- JavaScript property read `v[key]` on a parsed JSON value, for the
non-throwing cases. On an object it returns the last binding for the key
(duplicate JSON keys keep the last); other primitives and arrays have no
such property and yield `undefined` (`none`). On `null` the read throws
a TypeError: `extractErrorMessage` performs its reads inside a `try`
whose `catch` coincides with the `undefined` outcome, so `none` covers
both there; `processArticle`, whose read is not guarded, handles the
`null` envelope separately (see `processArticle`). -/
def jsGetField (v : Json) (key : String) : Option Json :=
  match v with
  | .obj members =>
    match members.reverse.find? (fun m => m.fst = key) with
    | some m => some m.snd
    | none => none
  | _ => none

/-- Failure value reaching `extractErrorMessage` (typed `any` in the
source; every failure the code raises is an `Error`, modelled by its
optional `message` string — `none` for an absent property). -/
structure ErrVal where
  message : Option String

/-- Error classifier from `errorMessageExtractor.ts`, modelling

```text
let message = error.message || "Something went wrong";
try {
  const parsed = JSON.parse(message);
  if (Array.isArray(parsed) && parsed.length > 0 && parsed[0].message) {
    message = parsed[0].message;
  }
} catch { }
return message;
```

The returned JavaScript value is a string except when the replacing
`message` field is a truthy non-string, so the model returns `Json`. -/
def extractErrorMessage (error : ErrVal) : Json :=
  let message :=
    match error.message with
    | some m => if m = "" then "Something went wrong" else m
    | none => "Something went wrong"
  match jsonParse message with
  | some (.arr (x :: _)) =>
    match jsGetField x "message" with
    | some v => if jsTruthy v then v else .str message
    | none => .str message
  | _ => .str message

/-! ### Streaming endpoints: `streamChat` and `streamSuggestions`

Both functions `fetch` their endpoint, throw when `response.body` is
absent, and otherwise run

```text
let fullResponse = "";
for await (const chunk of streamAsyncIterator(reader)) {
  fullResponse += chunk;
  onChunk(fullResponse);
}
return fullResponse;
```

The source of `streamAsyncIterator` is not part of the visible tree; per
spec section 4.1 it yields a lazy sequence of decoded text fragments that
either ends normally or fails mid-stream, so the iterator is modelled by
the finite fragment list it yields together with an optional trailing
failure. `onChunk` invocations are recorded as a trace; a thrown error
`Error(msg)` and a propagated stream failure are both carried as the
`Except` error value. -/

/-- Fragment sequence produced by reading `response.body`: the fragments
yielded in order, then either normal completion (`failure = none`) or a
failure raised by the iterator after the listed fragments. -/
structure StreamBody where
  fragments : List String
  failure : Option String

/-- Response of a `fetch` against a streaming endpoint: status data plus
an optional body (`response.body` can be `null`). -/
structure StreamResponse where
  ok : Bool
  status : Nat
  body : Option StreamBody

/-- Request payload `streamChat` sends to `/api/retrieve-chat`. -/
structure ChatRequest where
  url : String
  query : String
  integrator : String
  model : String

/-- Request payload `streamSuggestions` sends to `/api/suggest-articles`. -/
structure SuggRequest where
  url : String
  integrator : String

/-- The `for await` aggregation loop shared by `streamChat` and
`streamSuggestions`: folds the fragments over `fullResponse += chunk`
starting from `acc` and records each `onChunk(fullResponse)` argument.
Returns the final accumulated text and the `onChunk` trace. -/
def aggregateLoop (acc : String) : List String → String × List String
  | [] => (acc, [])
  | f :: rest =>
    let acc2 := acc ++ f
    let (fin, trace) := aggregateLoop acc2 rest
    (fin, acc2 :: trace)

/-- Shared body of both streaming dispatchers, applied to the response
their `fetch` produced. The result pairs the function outcome (returned
text or propagated error) with the `onChunk` trace. Neither function
inspects `response.ok` or `response.status`. -/
def runStreamingFetch (resp : StreamResponse) :
    Except String String × List String :=
  match resp.body with
  | none => (.error "No streaming body in response", [])
  | some b =>
    let (fin, trace) := aggregateLoop "" b.fragments
    match b.failure with
    | none => (.ok fin, trace)
    | some e => (.error e, trace)

/-- Model of `streamChat` from `streamChat.ts`: the request argument is
the payload it posts; the response argument is what `fetch` resolved to. -/
def streamChat (_req : ChatRequest) (resp : StreamResponse) :
    Except String String × List String :=
  runStreamingFetch resp

/-- Model of `streamSuggestions` from `streamSuggestions.tsx`; its loop
is textually identical to the one in `streamChat`. -/
def streamSuggestions (_req : SuggRequest) (resp : StreamResponse) :
    Except String String × List String :=
  runStreamingFetch resp

/-! ### AIChat component: conversation log and submit handlers -/

/-- State of the `AIChat` component relevant to the handlers: the
`conversations` log and the controlled `userQuery` input. -/
structure ChatState where
  conversations : List ConversationCard
  userQuery : String

/-- Characters the JavaScript string method `trim()` strips: the
ECMAScript WhiteSpace set (TAB, VT, FF, SP, NBSP, ZWNBSP and the Unicode
space separators) together with the LineTerminator set (LF, CR, LS, PS). -/
def isJsStrWhitespace (c : Char) : Bool :=
  c.toNat = 0x09 || c.toNat = 0x0A || c.toNat = 0x0B || c.toNat = 0x0C ||
  c.toNat = 0x0D || c.toNat = 0x20 || c.toNat = 0xA0 || c.toNat = 0x1680 ||
  (0x2000 ≤ c.toNat && c.toNat ≤ 0x200A) || c.toNat = 0x2028 ||
  c.toNat = 0x2029 || c.toNat = 0x202F || c.toNat = 0x205F ||
  c.toNat = 0x3000 || c.toNat = 0xFEFF

/-- Model of the JavaScript string method `trim()`: strips the full
ECMAScript whitespace/line-terminator set from both ends. -/
def jsTrim (s : String) : String :=
  String.mk
    (((s.data.dropWhile isJsStrWhitespace).reverse.dropWhile isJsStrWhitespace).reverse)

/-- The `onChunk` state update shared by both handlers:

```text
const updated = [...prev];
const lastIndex = updated.length - 1;
updated[lastIndex] = { ...updated[lastIndex],
                       assistant: { role: "assistant", content: partialResponse } };
```

On an empty log `lastIndex` is `-1` and the JavaScript element write is a
plain property assignment that leaves the array elements unchanged. -/
def updateLastAssistant : List ConversationCard → String → List ConversationCard
  | [], _ => []
  | [c], p => [{ c with assistant := { role := "assistant", content := p } }]
  | c :: rest, p => c :: updateLastAssistant rest p

/-- The optimistic card `handleSubmit` appends for a chat exchange. -/
def chatCard (userMessage : String) : ConversationCard :=
  { user := { role := "user", content := userMessage },
    assistant := { role := "assistant", content := "" } }

/-- The optimistic card `handleSuggestArticles` appends. -/
def suggestionsCard : ConversationCard :=
  { user := { role := "user", content := "Suggested Articles:" },
    assistant := { role := "assistant", content := "" } }

/-- Model of `handleSubmit` in `AIChat`: trims the pending query, returns
unchanged without dispatching when the trimmed query is empty, otherwise
clears the input, appends the optimistic card, dispatches `streamChat`
and applies its `onChunk` trace; stream errors are caught and logged, so
the state update is the same on failure. Returns the new state together
with the dispatched request (`none` when no network call was issued). -/
def handleSubmit (st : ChatState) (articleUrl integrator model : String)
    (resp : StreamResponse) : ChatState × Option ChatRequest :=
  let userMessage := jsTrim st.userQuery
  if userMessage = "" then (st, none)
  else
    let req : ChatRequest :=
      { url := articleUrl, query := userMessage,
        integrator := integrator, model := model }
    let log1 := st.conversations ++ [chatCard userMessage]
    let trace := (streamChat req resp).2
    let log2 := trace.foldl updateLastAssistant log1
    ({ conversations := log2, userQuery := "" }, some req)

/-- Model of `handleSuggestArticles` in `AIChat`: returns unchanged
without dispatching when `articleUrl` is empty (`if (!articleUrl)
return`), otherwise appends the suggestions card, dispatches
`streamSuggestions` and applies its `onChunk` trace; errors are caught
and logged. -/
def handleSuggestArticles (st : ChatState) (articleUrl integrator : String)
    (resp : StreamResponse) : ChatState × Option SuggRequest :=
  if articleUrl = "" then (st, none)
  else
    let req : SuggRequest := { url := articleUrl, integrator := integrator }
    let log1 := st.conversations ++ [suggestionsCard]
    let trace := (streamSuggestions req resp).2
    let log2 := trace.foldl updateLastAssistant log1
    ({ conversations := log2, userQuery := st.userQuery }, some req)

/-! ### Reachable conversation logs

The only writes `AIChat` performs on `conversations` are the two
optimistic appends and the shared `onChunk` update, so the reachable log
states are generated from the empty log by those three operations. -/

/-- One state-setter call on the conversation log, as performed by the
handlers. -/
inductive LogStep : List ConversationCard → List ConversationCard → Prop
  | appendChat (log : List ConversationCard) (q : String) :
      LogStep log (log ++ [chatCard q])
  | appendSuggestions (log : List ConversationCard) :
      LogStep log (log ++ [suggestionsCard])
  | update (log : List ConversationCard) (p : String) :
      LogStep log (updateLastAssistant log p)

/-- Conversation logs reachable from the initial `useState([])`. -/
inductive ReachableLog : List ConversationCard → Prop
  | init : ReachableLog []
  | step {log log2 : List ConversationCard} :
      ReachableLog log → LogStep log log2 → ReachableLog log2

/-! ### ArticleProcess: `processArticle` and the error banner timer -/

mutual

/-- Coercion of one element inside `String(array)`: a `null` element (and
in full JavaScript `undefined`, which JSON cannot produce) contributes
the empty string; every other element is coerced as usual. -/
def jsElemString : Json → String
  | .null => ""
  | .bool b => if b then "true" else "false"
  | .num lex => lex
  | .str s => s
  | .arr [] => ""
  | .arr (v :: rest) => jsElemString v ++ jsRestString rest
  | .obj _ => "[object Object]"

/-- Comma-joined tail of `String(array)`. -/
def jsRestString : List Json → String
  | [] => ""
  | v :: rest => "," ++ jsElemString v ++ jsRestString rest

end

/-- Timer installation performed by an effect: the delay in milliseconds
and the value the state is set to when the timer fires. -/
structure TimerInstall where
  delayMs : Nat
  fireValue : String
deriving DecidableEq, Repr

/-- Model of the error-banner effect in `ArticleProcess`:

```text
useEffect(() => {
  if (error) {
    const timer = setTimeout(() => { setError(""); }, 8000);
    return () => clearTimeout(timer);
  }
}, [error]);
```

For a truthy (non-empty) `error` it installs a timer of 8000 ms whose
firing sets the error state to the empty string; the effect cleanup
cancels the timer when `error` changes first. For an empty `error` no
timer is installed. -/
def errorBannerEffect (error : String) : Option TimerInstall :=
  if error = "" then none else some { delayMs := 8000, fireValue := "" }

/-! ### Specification-side helpers used to state the claims -/

/-- Concatenation `f1 ++ f2 ++ ... ++ fn` of a fragment list. -/
def concatFragments (fs : List String) : String :=
  fs.foldl (· ++ ·) ""

/-- Increasing prefixes `acc+f1, acc+f1+f2, ...` of a fragment list. -/
def cumulPrefixes (acc : String) : List String → List String
  | [] => []
  | f :: rest => (acc ++ f) :: cumulPrefixes (acc ++ f) rest

/-! ### Helper lemmas -/

/-- The aggregation loop returns the left fold of concatenation and
records exactly the increasing prefixes. -/
theorem aggregateLoop_eq (fs : List String) :
    ∀ acc, aggregateLoop acc fs = (fs.foldl (· ++ ·) acc, cumulPrefixes acc fs) := by
  induction fs with
  | nil => intro acc; rfl
  | cons f rest ih => intro acc; simp [aggregateLoop, cumulPrefixes, ih]

/-- There are as many increasing prefixes as fragments. -/
theorem cumulPrefixes_length (fs : List String) :
    ∀ acc, (cumulPrefixes acc fs).length = fs.length := by
  induction fs with
  | nil => intro acc; rfl
  | cons f rest ih => intro acc; simp [cumulPrefixes, ih]

/-- The `onChunk` update on a log ending in card `c` rewrites exactly that
last card's assistant message. -/
theorem updateLastAssistant_concat (l : List ConversationCard) :
    ∀ (c : ConversationCard) (p : String),
      updateLastAssistant (l ++ [c]) p =
        l ++ [{ user := c.user, assistant := { role := "assistant", content := p } }] := by
  induction l with
  | nil => intro c p; rfl
  | cons a t ih =>
    intro c p
    cases t with
    | nil => rfl
    | cons b t2 =>
      have step : updateLastAssistant (a :: ((b :: t2) ++ [c])) p
          = a :: updateLastAssistant ((b :: t2) ++ [c]) p := rfl
      rw [List.cons_append, step, ih]
      rfl

/-- Folding a whole `onChunk` trace over a log ending in card `c` leaves
everything but the last assistant message alone and ends with the
assistant message set by the trace's last entry (or `c.assistant` for an
empty trace, written as a fold). -/
theorem foldl_updateLastAssistant_concat (trace : List String) :
    ∀ (l : List ConversationCard) (c : ConversationCard),
      trace.foldl updateLastAssistant (l ++ [c]) =
        l ++ [{ user := c.user,
                assistant := trace.foldl
                  (fun _ t => ({ role := "assistant", content := t } : Message))
                  c.assistant }] := by
  induction trace with
  | nil => intro l c; rfl
  | cons t ts ih =>
    intro l c
    rw [List.foldl_cons, updateLastAssistant_concat l c t, ih, List.foldl_cons]

/-- Folding the assistant-message override over the increasing prefixes
of `fs`, starting from accumulated text `acc`, ends at the full
concatenation. -/
theorem foldl_override_cumulPrefixes (fs : List String) :
    ∀ acc, (cumulPrefixes acc fs).foldl
        (fun _ t => ({ role := "assistant", content := t } : Message))
        { role := "assistant", content := acc } =
      { role := "assistant", content := fs.foldl (· ++ ·) acc } := by
  induction fs with
  | nil => intro acc; rfl
  | cons f rest ih => intro acc; simp [cumulPrefixes, ih]

/-- Cards of a log touched by the `onChunk` update keep their user
message, and the invariant roles are preserved. -/
theorem updateLastAssistant_invariant (log : List ConversationCard) (p : String)
    (h : ∀ c ∈ log, c.user.role = "user" ∧ c.assistant.role = "assistant") :
    ∀ c2 ∈ updateLastAssistant log p,
      c2.user.role = "user" ∧ c2.assistant.role = "assistant" := by
  rcases List.eq_nil_or_concat log with hnil | ⟨l, c, hc⟩
  · subst hnil; intro c2 hc2; cases hc2
  · rw [List.concat_eq_append] at hc
    subst hc
    rw [updateLastAssistant_concat]
    intro c2 hc2
    rcases List.mem_append.mp hc2 with h1 | h1
    · exact h c2 (List.mem_append.mpr (Or.inl h1))
    · rcases List.mem_singleton.mp h1 with rfl
      exact ⟨(h c (List.mem_append.mpr (Or.inr (List.mem_singleton.mpr rfl)))).1, rfl⟩

/-- The `onChunk` update preserves the user component of every entry. -/
theorem updateLastAssistant_map_user (log : List ConversationCard) (p : String) :
    (updateLastAssistant log p).map (fun c => c.user) = log.map (fun c => c.user) := by
  rcases List.eq_nil_or_concat log with hnil | ⟨l, c, hc⟩
  · subst hnil; rfl
  · rw [List.concat_eq_append] at hc
    subst hc
    rw [updateLastAssistant_concat]
    simp

/-- The `onChunk` update preserves the log length. -/
theorem updateLastAssistant_length (log : List ConversationCard) (p : String) :
    (updateLastAssistant log p).length = log.length := by
  rcases List.eq_nil_or_concat log with hnil | ⟨l, c, hc⟩
  · subst hnil; rfl
  · rw [List.concat_eq_append] at hc
    subst hc
    rw [updateLastAssistant_concat]
    simp

/-! ### Claim theorems -/

/-- C1: for every finite sequence of fragments `f1..fn` yielded by the
stream iterator, `streamChat` and `streamSuggestions` return the
concatenation `f1+...+fn` as their final result and invoke `onChunk`
exactly `n` times with exactly the increasing prefixes
`f1, f1+f2, ..., f1+...+fn`, in that order. -/
theorem stream_aggregation_correct (req : ChatRequest) (sreq : SuggRequest)
    (ok : Bool) (status : Nat) (fs : List String) :
    streamChat req ⟨ok, status, some ⟨fs, none⟩⟩ =
      (Except.ok (concatFragments fs), cumulPrefixes "" fs)
    ∧ streamSuggestions sreq ⟨ok, status, some ⟨fs, none⟩⟩ =
      (Except.ok (concatFragments fs), cumulPrefixes "" fs)
    ∧ (cumulPrefixes "" fs).length = fs.length := by
  refine ⟨?_, ?_, cumulPrefixes_length fs ""⟩ <;>
    simp [streamChat, streamSuggestions, runStreamingFetch, aggregateLoop_eq,
      concatFragments]

/-- C4: every successful submit grows the conversation log by exactly one
card, whose user content is the submitted query verbatim (chat — the
query carried by the dispatched request) or the fixed header
"Suggested Articles:" (suggestions). -/
theorem submit_appends_one_card :
    (∀ (st : ChatState) (url integrator model : String) (resp : StreamResponse),
      jsTrim st.userQuery ≠ "" →
        (handleSubmit st url integrator model resp).1.conversations.length
            = st.conversations.length + 1
        ∧ ∃ req, (handleSubmit st url integrator model resp).2 = some req
            ∧ req.query = jsTrim st.userQuery
            ∧ ((handleSubmit st url integrator model resp).1.conversations.getLast?).map
                (fun c => c.user.content) = some req.query)
    ∧ (∀ (st : ChatState) (url integrator : String) (resp : StreamResponse),
      url ≠ "" →
        (handleSuggestArticles st url integrator resp).1.conversations.length
            = st.conversations.length + 1
        ∧ (handleSuggestArticles st url integrator resp).2 = some ⟨url, integrator⟩
        ∧ ((handleSuggestArticles st url integrator resp).1.conversations.getLast?).map
            (fun c => c.user.content) = some "Suggested Articles:") := by
  constructor
  · intro st url integrator model resp h
    refine ⟨?_, ⟨url, jsTrim st.userQuery, integrator, model⟩, ?_, rfl, ?_⟩ <;>
      simp [handleSubmit, if_neg h, foldl_updateLastAssistant_concat, chatCard,
        List.getLast?_concat]
  · intro st url integrator resp h
    refine ⟨?_, ?_, ?_⟩ <;>
      simp [handleSuggestArticles, if_neg h, foldl_updateLastAssistant_concat,
        suggestionsCard, List.getLast?_concat]

/-- Witness for the C4 theorem at one concrete chat submit and one
concrete suggestions submit. -/
theorem submit_appends_one_card_witness :
    ((handleSubmit ⟨[], "hello"⟩ "https://a" "openai" "m"
        ⟨true, 200, some ⟨["Hi"], none⟩⟩).1.conversations.length = 0 + 1)
    ∧ ((handleSuggestArticles ⟨[], ""⟩ "https://a" "openai"
        ⟨true, 200, some ⟨["S"], none⟩⟩).1.conversations.length = 0 + 1) :=
  ⟨(submit_appends_one_card.1 ⟨[], "hello"⟩ "https://a" "openai" "m"
      ⟨true, 200, some ⟨["Hi"], none⟩⟩ (by decide)).1,
   (submit_appends_one_card.2 ⟨[], ""⟩ "https://a" "openai"
      ⟨true, 200, some ⟨["S"], none⟩⟩ (by decide)).1⟩

/-- C5 counterexample: a failure whose message is the body
`[{"message":""}]` parses as a non-empty JSON array whose first element
has a `message` field, yet the classifier does not return that field (the
empty string) — the falsy field check keeps the raw message instead. -/
theorem empty_message_field_counterexample :
    extractErrorMessage ⟨some "[\x7b\"message\":\"\"\x7d]"⟩ ≠ Json.str ""
    ∧ extractErrorMessage ⟨some "[\x7b\"message\":\"\"\x7d]"⟩ =
        Json.str "[\x7b\"message\":\"\"\x7d]" := by
  constructor
  · intro h
    have h2 : Json.str "[\x7b\"message\":\"\"\x7d]" = Json.str "" := by
      calc Json.str "[\x7b\"message\":\"\"\x7d]"
          = extractErrorMessage ⟨some "[\x7b\"message\":\"\"\x7d]"⟩ := rfl
        _ = Json.str "" := h
    injection h2 with h3
    exact absurd h3 (by decide)
  · rfl

/-- C5 amended: `extractErrorMessage` is a total function that returns
the first element's `message` field when the failure's message parses as
a non-empty JSON array whose first element carries a truthy `message`
field (in particular a non-empty string such as "rate limited");
otherwise the failure's own message; otherwise the fallback
"Something went wrong". A malformed non-JSON body degrades to the
failure's own message, never an exception. -/
theorem extractErrorMessage_classification :
    extractErrorMessage ⟨some "[\x7b\"message\":\"rate limited\"\x7d]"⟩ =
        Json.str "rate limited"
    ∧ extractErrorMessage ⟨some "oops not json"⟩ = Json.str "oops not json"
    ∧ extractErrorMessage ⟨none⟩ = Json.str "Something went wrong"
    ∧ extractErrorMessage ⟨some ""⟩ = Json.str "Something went wrong"
    ∧ (∀ (m : String) (x : Json) (rest : List Json) (v : Json),
        m ≠ "" → jsonParse m = some (Json.arr (x :: rest)) →
        jsGetField x "message" = some v → jsTruthy v = true →
        extractErrorMessage ⟨some m⟩ = v)
    ∧ (∀ m : String, m ≠ "" → jsonParse m = none →
        extractErrorMessage ⟨some m⟩ = Json.str m) := by
  refine ⟨rfl, rfl, rfl, rfl, ?_, ?_⟩
  · intro m x rest v hm hp hg ht
    simp [extractErrorMessage, hm, hp, hg, ht]
  · intro m hm hp
    simp [extractErrorMessage, hm, hp]

/-- Witness for the C5 theorem: the general truthy-field clause applied
at a concrete structured body. -/
theorem extractErrorMessage_classification_witness :
    extractErrorMessage ⟨some "[\x7b\"message\":\"bad gateway\"\x7d]"⟩ =
      Json.str "bad gateway" :=
  extractErrorMessage_classification.2.2.2.2.1
    "[\x7b\"message\":\"bad gateway\"\x7d]"
    (Json.obj [("message", Json.str "bad gateway")]) []
    (Json.str "bad gateway") (by decide) rfl rfl rfl

/-- C6: each `onChunk` application replaces only the assistant content of
the card at the log's current last index; every card at an earlier index
is unchanged, and the last card's user message and both roles are
unchanged. -/
theorem onChunk_update_frame (log : List ConversationCard) (p : String)
    (c : ConversationCard) (hlast : log.getLast? = some c)
    (hrole : c.assistant.role = "assistant") :
    (updateLastAssistant log p).length = log.length
    ∧ (∀ i, i + 1 < log.length → (updateLastAssistant log p)[i]? = log[i]?)
    ∧ (updateLastAssistant log p).getLast? =
        some { user := c.user,
               assistant := { role := c.assistant.role, content := p } } := by
  rcases List.eq_nil_or_concat log with hnil | ⟨l, c2, hc⟩
  · subst hnil; cases hlast
  · rw [List.concat_eq_append] at hc
    subst hc
    rw [List.getLast?_concat] at hlast
    cases hlast
    refine ⟨updateLastAssistant_length _ p, ?_, ?_⟩
    · intro i hi
      rw [List.length_append, List.length_singleton] at hi
      have hi2 : i < l.length := by omega
      rw [updateLastAssistant_concat, List.getElem?_append_left hi2,
        List.getElem?_append_left hi2]
    · rw [updateLastAssistant_concat, List.getLast?_concat, hrole]

/-- Witness for the C6 theorem at a concrete one-card log. -/
theorem onChunk_update_frame_witness :
    (updateLastAssistant [chatCard "q"] "Hello").length = [chatCard "q"].length :=
  (onChunk_update_frame [chatCard "q"] "Hello" (chatCard "q") rfl rfl).1

/-- C7: the conversation log is append-only — every operation it
undergoes appends one card at the tail or rewrites the last assistant
content — so in every reachable log state all cards satisfy
`user.role = "user"` and `assistant.role = "assistant"`, the length never
decreases across a step, and existing user messages are never altered. -/
theorem conversationLog_invariant :
    (∀ log, ReachableLog log →
      ∀ c ∈ log, c.user.role = "user" ∧ c.assistant.role = "assistant")
    ∧ (∀ log log2, LogStep log log2 →
        log.length ≤ log2.length
        ∧ ∀ i, i < log.length →
            (log2[i]?).map (fun c => c.user) = (log[i]?).map (fun c => c.user)) := by
  have hstep : ∀ log log2, LogStep log log2 →
      log.length ≤ log2.length
      ∧ ∀ i, i < log.length →
          (log2[i]?).map (fun c => c.user) = (log[i]?).map (fun c => c.user) := by
    intro log log2 hs
    cases hs with
    | appendChat q =>
      refine ⟨by simp, ?_⟩
      intro i hi
      rw [List.getElem?_append_left hi]
    | appendSuggestions =>
      refine ⟨by simp, ?_⟩
      intro i hi
      rw [List.getElem?_append_left hi]
    | update p =>
      refine ⟨le_of_eq (updateLastAssistant_length log p).symm, ?_⟩
      intro i hi
      rw [← List.getElem?_map, ← List.getElem?_map, updateLastAssistant_map_user]
  refine ⟨?_, hstep⟩
  intro log hr
  induction hr with
  | init => intro c hc; cases hc
  | @step log1 log2 hr2 hs ih =>
    cases hs with
    | appendChat q =>
      intro c hc
      rcases List.mem_append.mp hc with h1 | h1
      · exact ih c h1
      · rcases List.mem_singleton.mp h1 with rfl
        exact ⟨rfl, rfl⟩
    | appendSuggestions =>
      intro c hc
      rcases List.mem_append.mp hc with h1 | h1
      · exact ih c h1
      · rcases List.mem_singleton.mp h1 with rfl
        exact ⟨rfl, rfl⟩
    | update p =>
      exact updateLastAssistant_invariant log1 p ih

/-- Witness for the C7 theorem: the invariant evaluated on a concrete
reachable log, and the step facts on a concrete append step. -/
theorem conversationLog_invariant_witness :
    ((chatCard "hi").user.role = "user" ∧ (chatCard "hi").assistant.role = "assistant")
    ∧ ([] : List ConversationCard).length ≤ [chatCard "hi"].length :=
  ⟨conversationLog_invariant.1 [chatCard "hi"]
      (ReachableLog.step ReachableLog.init (LogStep.appendChat [] "hi"))
      (chatCard "hi") (List.mem_singleton.mpr rfl),
   (conversationLog_invariant.2 [] [chatCard "hi"] (LogStep.appendChat [] "hi")).1⟩

/-- C8: when the fragment sequence fails after a prefix `fs` of
fragments, `streamChat` and `streamSuggestions` propagate that failure to
the caller, invoke `onChunk` only for the consumed fragments (none after
the failure), and the partial accumulated text already written to the
log's last card remains there unchanged. -/
theorem stream_failure_propagation (req : ChatRequest) (sreq : SuggRequest)
    (ok : Bool) (status : Nat) (fs : List String) (e : String)
    (st : ChatState) (url integrator model : String)
    (h : jsTrim st.userQuery ≠ "") :
    streamChat req ⟨ok, status, some ⟨fs, some e⟩⟩ =
      (Except.error e, cumulPrefixes "" fs)
    ∧ streamSuggestions sreq ⟨ok, status, some ⟨fs, some e⟩⟩ =
      (Except.error e, cumulPrefixes "" fs)
    ∧ (cumulPrefixes "" fs).length = fs.length
    ∧ ((handleSubmit st url integrator model
          ⟨ok, status, some ⟨fs, some e⟩⟩).1.conversations.getLast?).map
        (fun c => c.assistant.content) = some (concatFragments fs) := by
  refine ⟨?_, ?_, cumulPrefixes_length fs "", ?_⟩
  · simp [streamChat, runStreamingFetch, aggregateLoop_eq]
  · simp [streamSuggestions, runStreamingFetch, aggregateLoop_eq]
  · have htrace : (streamChat ⟨url, jsTrim st.userQuery, integrator, model⟩
        ⟨ok, status, some ⟨fs, some e⟩⟩).2 = cumulPrefixes "" fs := by
      simp [streamChat, runStreamingFetch, aggregateLoop_eq]
    simp only [handleSubmit, if_neg h, htrace, foldl_updateLastAssistant_concat]
    have hfold := foldl_override_cumulPrefixes fs ""
    simp only [chatCard] at hfold ⊢
    rw [hfold, List.getLast?_concat]
    simp [concatFragments]

/-- Witness for the C8 theorem at a concrete two-fragment failing
stream. -/
theorem stream_failure_propagation_witness :
    streamChat ⟨"https://a", "q", "openai", "m"⟩
        ⟨true, 200, some ⟨["A", "B"], some "boom"⟩⟩ =
      (Except.error "boom", cumulPrefixes "" ["A", "B"]) :=
  (stream_failure_propagation ⟨"https://a", "q", "openai", "m"⟩ ⟨"https://a", "openai"⟩
    true 200 ["A", "B"] "boom" ⟨[], "q"⟩ "https://a" "openai" "m" (by decide)).1

/-- C9: the error-banner effect installs, for every non-empty error
message, a timer of exactly 8000 ms whose firing clears the error state
to the empty string; no timer is installed for an empty error state. -/
theorem error_banner_timer (error : String) :
    (error ≠ "" → errorBannerEffect error = some { delayMs := 8000, fireValue := "" })
    ∧ (error = "" → errorBannerEffect error = none) := by
  constructor
  · intro h
    simp [errorBannerEffect, h]
  · intro h
    simp [errorBannerEffect, h]

/-- Witness for the C9 theorem at a concrete error message. -/
theorem error_banner_timer_witness :
    errorBannerEffect "boom" = some { delayMs := 8000, fireValue := "" } :=
  (error_banner_timer "boom").1 (by decide)

/-- C10: when the HTTP response carries no body, `streamChat` and
`streamSuggestions` throw `Error("No streaming body in response")` before
reading any fragment, `onChunk` is never invoked, and the optimistically
appended card's assistant content stays the empty string. -/
theorem no_streaming_body (req : ChatRequest) (sreq : SuggRequest)
    (ok : Bool) (status : Nat) (st : ChatState) (url integrator model : String) :
    streamChat req ⟨ok, status, none⟩ =
      (Except.error "No streaming body in response", [])
    ∧ streamSuggestions sreq ⟨ok, status, none⟩ =
      (Except.error "No streaming body in response", [])
    ∧ (jsTrim st.userQuery ≠ "" →
        ((handleSubmit st url integrator model
            ⟨ok, status, none⟩).1.conversations.getLast?).map
          (fun c => c.assistant.content) = some "") := by
  refine ⟨rfl, rfl, ?_⟩
  intro h
  simp only [handleSubmit, if_neg h]
  have htrace : (streamChat ⟨url, jsTrim st.userQuery, integrator, model⟩
      ⟨ok, status, none⟩).2 = [] := rfl
  rw [htrace]
  simp [chatCard, List.getLast?_concat]

/-- Witness for the C10 theorem: the appended card keeps an empty
assistant content on a body-less response. -/
theorem no_streaming_body_witness :
    ((handleSubmit ⟨[], "hi"⟩ "https://a" "openai" "m"
        ⟨true, 200, none⟩).1.conversations.getLast?).map
      (fun c => c.assistant.content) = some "" :=
  (no_streaming_body ⟨"https://a", "hi", "openai", "m"⟩ ⟨"https://a", "openai"⟩
    true 200 ⟨[], "hi"⟩ "https://a" "openai" "m").2.2 (by decide)

end ArticleRag
